import Mathlib

/-!
Verification of the MMLU-Pro evaluation harness (`mmlu_pro_benchmark.py`,
`benchmarks/mmlu_pro_cot.py`).

The Python sources are shallowly embedded: pure functions become Lean
functions over `String` / `List Char`, the regular expressions of
`extract_answer` become explicit left-to-right scanning functions with the
exact backtracking behaviour of the source patterns, `collections.Counter`
becomes an association list, and Python float arithmetic on accuracy ratios
is modelled with `ℚ` (the comparisons involved are exact in both models).

Character classes (`\w`, `\s`) are modelled over their ASCII portion, which
covers all texts handled by the harness; Python string truthiness
(`if few_shot_examples:`, `if total_limit:`) is modelled explicitly at each
use site.
-/

namespace MMLUPro

/-! ## Character helpers (ASCII models of Python character classes) -/

/-- ASCII lower-casing of a single character, the model of `str.lower` used
by `get_domain` on its ASCII inputs. -/
def pyLowerChar (c : Char) : Char :=
  if 'A' ≤ c && c ≤ 'Z' then Char.ofNat (c.toNat + 32) else c

/-- ASCII upper-casing of a single character, the model of `str.upper`
applied by `extract_answer` to a captured `[A-J]` (case-insensitive) group. -/
def pyUpperChar (c : Char) : Char :=
  if 'a' ≤ c && c ≤ 'z' then Char.ofNat (c.toNat - 32) else c

/-- Membership in the character class `[A-J]` (case-sensitive). -/
def isChoiceUpper (c : Char) : Bool :=
  'A' ≤ c && c ≤ 'J'

/-- Membership in the character class `[A-J]` under `re.IGNORECASE`. -/
def isChoiceCI (c : Char) : Bool :=
  ('A' ≤ c && c ≤ 'J') || ('a' ≤ c && c ≤ 'j')

/-- Word characters of the regex metacharacter `\b` (ASCII part of `\w`):
letters, digits and the underscore. -/
def isWordChar (c : Char) : Bool :=
  ('a' ≤ c && c ≤ 'z') || ('A' ≤ c && c ≤ 'Z') || ('0' ≤ c && c ≤ '9') || c == '_'

/-- Whitespace characters matched by the regex class `\s` (ASCII part). -/
def isPySpace (c : Char) : Bool :=
  c == ' ' || c == '\t' || c == '\n' || c == '\r' || c == '\x0b' || c == '\x0c'

/-- Lower-case every character, the model of `category.lower()`. -/
def pyLowerList (l : List Char) : List Char :=
  l.map pyLowerChar

/-- Decide whether `pat` is a prefix of `l` (used by the substring test). -/
def isPrefixList : List Char → List Char → Bool
  | [], _ => true
  | _ :: _, [] => false
  | p :: ps, c :: cs => p == c && isPrefixList ps cs

/-- Decide whether `pat` occurs as a contiguous substring of `l`: the model
of the Python membership test `pat in l`. -/
def containsSub (l pat : List Char) : Bool :=
  isPrefixList pat l ||
    match l with
    | [] => false
    | _ :: t => containsSub t pat

/-! ## Constants of `mmlu_pro_benchmark.py` -/

/-- Answer letters: `CHOICES = ["A", ..., "J"]` (each entry is a single
character in the source, so the list is modelled as `List Char`). -/
def CHOICES : List Char := ['A', 'B', 'C', 'D', 'E', 'F', 'G', 'H', 'I', 'J']

/-- Category-to-domain rules, `DOMAIN_MAPPING`, in the declaration order of
the source dict (Python dicts iterate in insertion order). -/
def DOMAIN_MAPPING : List (String × String) :=
  [("math", "STEM"),
   ("physics", "STEM"),
   ("chemistry", "STEM"),
   ("biology", "STEM"),
   ("computer science", "STEM"),
   ("engineering", "STEM"),
   ("statistics", "STEM"),
   ("economics", "Social Sciences"),
   ("psychology", "Social Sciences"),
   ("business", "Social Sciences"),
   ("law", "Humanities"),
   ("philosophy", "Humanities"),
   ("history", "Humanities"),
   ("health", "Other"),
   ("other", "Other")]

/-- First-match lookup over the rule table, the loop body of `get_domain`. -/
def lookupDomain : List (String × String) → List Char → String
  | [], _ => "Other"
  | (key, dom) :: rest, catLower =>
    if containsSub catLower key.toList then dom else lookupDomain rest catLower

/-- Model of `get_domain`: lower-case the category, scan `DOMAIN_MAPPING` in
order, return the first matching domain, else `"Other"`. -/
def get_domain (category : String) : String :=
  lookupDomain DOMAIN_MAPPING (pyLowerList category.toList)

/-! ## Dataset preprocessing -/

/-- Raw dataset record as consumed by `preprocess_dataset`; fields read with
`item.get(...)` defaults are `Option`-valued. -/
structure RawItem where
  question_id : Option Nat
  question : String
  options : List String
  answer : String
  answer_index : Nat
  category : String
  cot_content : Option String
  src : Option String
  deriving DecidableEq, Repr

/-- Processed question record produced by `preprocess_dataset`. -/
structure QuestionItem where
  question_id : Nat
  question : String
  options : List String
  answer : String
  answer_index : Nat
  category : String
  cot_content : String
  src : String
  deriving DecidableEq, Repr

/-- Body of the `preprocess_dataset` loop for the record at position `pos`
of the output (the `question_id` default is `len(processed)`, which equals
the position since every iteration appends exactly one record). -/
def preprocessItem (pos : Nat) (item : RawItem) : QuestionItem :=
  { question_id := item.question_id.getD pos
    question := item.question
    options := item.options.filter (fun opt => opt != "N/A")
    answer := item.answer
    answer_index := item.answer_index
    category := item.category
    cot_content := item.cot_content.getD ""
    src := item.src.getD "" }

/-- Model of `preprocess_dataset`: drop `"N/A"` options, default missing
identifiers to the output position. `answer_index` is copied unchanged. -/
def preprocess_dataset (ds : List RawItem) : List QuestionItem :=
  ds.enum.map (fun p => preprocessItem p.1 p.2)

/-! ## Prompt construction (`format_prompt`) -/

/-- Lettered option lines `f"{CHOICES[i]}. {opt}\n"` for one options list.
An index beyond the ten letters would raise `IndexError` in the source;
the dataset guarantees at most ten options, so a placeholder default is
used for the (unreached) out-of-range case. -/
def optionLines (options : List String) : String :=
  String.join (options.enum.map (fun p =>
    String.singleton (CHOICES.getD p.1 '?') ++ ". " ++ p.2 ++ "\n"))

/-- Exemplar rationale marker rewritten by `format_prompt`. -/
def cotMarkerOld : String := "A: Let" ++ String.singleton (Char.ofNat 39) ++ "s think step by step."

/-- Replacement rationale marker emitted by `format_prompt`. -/
def cotMarkerNew : String := "Answer: Let" ++ String.singleton (Char.ofNat 39) ++ "s think step by step."

/-- One few-shot exemplar block of `format_prompt`: question, lettered
options, then either the rewritten rationale (when `use_cot` holds and the
exemplar has a non-empty `cot_content` — Python string truthiness) or a
direct answer line. -/
def exemplarBlock (useCot : Bool) (ex : QuestionItem) : String :=
  "Question:\n" ++ ex.question ++ "\n" ++ "Options:\n" ++ optionLines ex.options ++
    (if useCot && !(ex.cot_content == "") then
      (ex.cot_content.replace cotMarkerOld cotMarkerNew) ++ "\n\n"
    else
      "Answer: The answer is (" ++ String.singleton (CHOICES.getD ex.answer_index '?') ++ ").\n\n")

/-- Model of `format_prompt`: instruction header, optional few-shot blocks
(`if few_shot_examples:` is false both for `None` and for an empty list),
then the target question with an open chain-of-thought cue. -/
def format_prompt (question : String) (options : List String) (category : String)
    (fewShotExamples : Option (List QuestionItem)) (useCot : Bool) : String :=
  let instruction :=
    "The following are multiple choice questions (with answers) about " ++ category ++
      ". Think step by step and then finish your answer with \"the answer is (X)\" " ++
      "where X is the correct letter choice.\n\n"
  let fewShotPart :=
    match fewShotExamples with
    | none => ""
    | some exs => if exs.isEmpty then "" else String.join (exs.map (exemplarBlock useCot))
  instruction ++ fewShotPart ++
    "Question:\n" ++ question ++ "\n" ++ "Options:\n" ++ optionLines options ++
    "Answer: Let" ++ String.singleton (Char.ofNat 39) ++ "s think step by step."

/-! ## Answer extraction (`extract_answer`)

The three `re.search` patterns are embedded as explicit left-to-right scans
with the exact backtracking behaviour of the source patterns. -/

/-- Strip a case-insensitively matching prefix `pat` (given lower-cased)
from `l`, returning the remaining suffix. -/
def stripCaseless : List Char → List Char → Option (List Char)
  | [], l => some l
  | _ :: _, [] => none
  | p :: ps, c :: cs => if pyLowerChar c == p then stripCaseless ps cs else none

/-- Strip an exactly matching prefix `pat` from `l`. -/
def stripExact : List Char → List Char → Option (List Char)
  | [], l => some l
  | _ :: _, [] => none
  | p :: ps, c :: cs => if p == c then stripExact ps cs else none

/-- Attempt of pattern 1, `answer is \(?([A-J])\)?` with `re.IGNORECASE`,
anchored at the head of `l`: after the literal text an optional `(` is
consumed greedily, then a (case-insensitive) choice letter is captured and
upper-cased. When the character after `(` is not a choice letter the
backtracked alternative (no parenthesis) requires `(` itself to be a
letter, which fails — so the whole attempt fails, as in the source. -/
def matchTier1At (l : List Char) : Option Char :=
  match stripCaseless "answer is ".toList l with
  | none => none
  | some rest =>
    match rest with
    | '(' :: c :: _ => if isChoiceCI c then some (pyUpperChar c) else none
    | c :: _ => if isChoiceCI c then some (pyUpperChar c) else none
    | [] => none

/-- Leftmost match of pattern 1 (`re.search` scans start positions left to
right). -/
def searchTier1 : List Char → Option Char
  | [] => none
  | c :: t =>
    match matchTier1At (c :: t) with
    | some r => some r
    | none => searchTier1 t

/-- Attempt of pattern 2, `[aA]nswer:\s*([A-J])`, anchored at the head of
`l`: `a` or `A`, the literal `nswer:`, a greedy run of whitespace, then an
upper-case choice letter (backtracking into `\s*` cannot succeed because a
whitespace character is never in `[A-J]`). -/
def matchTier2At (l : List Char) : Option Char :=
  match l with
  | [] => none
  | c :: rest =>
    if c == 'a' || c == 'A' then
      match stripExact "nswer:".toList rest with
      | none => none
      | some r2 =>
        match r2.dropWhile isPySpace with
        | [] => none
        | c2 :: _ => if isChoiceUpper c2 then some c2 else none
    else none

/-- Leftmost match of pattern 2. -/
def searchTier2 : List Char → Option Char
  | [] => none
  | c :: t =>
    match matchTier2At (c :: t) with
    | some r => some r
    | none => searchTier2 t

/-- Word-boundary test of `\b` on one side: holds at the ends of the text
and against a non-word character. -/
def boundaryOk : Option Char → Bool
  | none => true
  | some c => !isWordChar c

/-- Attempt of `\b([A-J])\b` anchored at the head of `l`, where `prev` is
the character preceding `l` in the full text (`none` at the start). -/
def standaloneAt (prev : Option Char) : List Char → Bool
  | [] => false
  | c :: rest => isChoiceUpper c && boundaryOk prev && boundaryOk rest.head?

/-- Test of the lookahead body `.*\b[A-J]\b` (with `re.DOTALL`): does any
standalone choice letter occur in `l`? -/
def existsStandalone (prev : Option Char) : List Char → Bool
  | [] => false
  | c :: t => standaloneAt prev (c :: t) || existsStandalone (some c) t

/-- Leftmost match of pattern 3, `\b([A-J])\b(?!.*\b[A-J]\b)` with
`re.DOTALL`: a standalone choice letter whose negative lookahead rules out
any later standalone choice letter. -/
def searchTier3 (prev : Option Char) : List Char → Option Char
  | [] => none
  | c :: t =>
    if standaloneAt prev (c :: t) && !existsStandalone (some c) t then some c
    else searchTier3 (some c) t

/-- Model of `extract_answer`: the three regex tiers tried in order, first
success wins, `none` when all fail. The copy in `benchmarks/mmlu_pro_cot.py`
is behaviourally identical (its tier 3 returns `group(0)` instead of
`group(1)`, but the zero-width lookahead makes the two groups equal). -/
def extract_answer (text : String) : Option Char :=
  match searchTier1 text.toList with
  | some c => some c
  | none =>
    match searchTier2 text.toList with
    | some c => some c
    | none => searchTier3 none text.toList

/-! ## Adaptive few-shot prompt building (`evaluate_mmlu_pro`, lines 239-268) -/

/-- Prompt built for one test question with `k` few-shot exemplars: the
`format_prompt` call of the shrink loop, which passes `few_shot[:k]` when
`k > 0` and `None` otherwise. -/
def promptAt (question : String) (options : List String) (category : String)
    (fewShot : List QuestionItem) (useCot : Bool) (k : Nat) : String :=
  format_prompt question options category
    (if k > 0 then some (fewShot.take k) else none) useCot

/-- Budget test of the shrink loop: the tokenized prompt length fits within
`max_model_len - 2048` (computed in `ℤ`, as Python subtraction can go
negative). -/
def fitsBudget (tokLen : String → Nat) (maxModelLen : Int) (question : String)
    (options : List String) (category : String) (fewShot : List QuestionItem)
    (useCot : Bool) (k : Nat) : Bool :=
  decide ((tokLen (promptAt question options category fewShot useCot k) : Int) ≤ maxModelLen - 2048)

/-- Descending exemplar counts `range(num_few_shot - 1, -1, -1)`. -/
def revRange : Nat → List Nat
  | 0 => []
  | n + 1 => n :: revRange n

/-- Shrink loop of `evaluate_mmlu_pro`: try each exemplar count in `ks` in
order, return the first prompt that fits the budget; when none fits, the
loop leaves the last prompt built (the zero-exemplar one) in place. -/
def shrinkLoop (tokLen : String → Nat) (maxModelLen : Int) (question : String)
    (options : List String) (category : String) (fewShot : List QuestionItem)
    (useCot : Bool) : List Nat → String → String
  | [], current => current
  | k :: ks, _ =>
    let p := promptAt question options category fewShot useCot k
    if fitsBudget tokLen maxModelLen question options category fewShot useCot k then p
    else shrinkLoop tokLen maxModelLen question options category fewShot useCot ks p

/-- Per-item prompt construction of `evaluate_mmlu_pro`: slice the few-shot
pool to `num_few_shot` entries, build the initial prompt, and enter the
shrink loop only when the initial prompt exceeds the budget. -/
def buildPrompt (tokLen : String → Nat) (maxModelLen : Int) (question : String)
    (options : List String) (category : String) (pool : List QuestionItem)
    (numFewShot : Nat) (useCot : Bool) : String :=
  let fewShot := pool.take numFewShot
  let p0 := format_prompt question options category
    (if numFewShot > 0 then some fewShot else none) useCot
  if (tokLen p0 : Int) > maxModelLen - 2048 then
    shrinkLoop tokLen maxModelLen question options category fewShot useCot (revRange numFewShot) p0
  else p0

/-! ## Few-shot pool grouping (`evaluate_mmlu_pro`, lines 228-241) -/

/-- One step of the `val_by_category` grouping loop: append the item to its
category bucket, creating the bucket on first sight. -/
def addToCat (m : List (String × List QuestionItem)) (item : QuestionItem) :
    List (String × List QuestionItem) :=
  match m with
  | [] => [(item.category, [item])]
  | (c, l) :: t =>
    if c == item.category then (c, l ++ [item]) :: t else (c, l) :: addToCat t item

/-- Grouping of the validation pool by category, in encounter order. -/
def valByCategory (valData : List QuestionItem) : List (String × List QuestionItem) :=
  valData.foldl addToCat []

/-- Model of `val_by_category.get(cat, [])`. -/
def lookupVBC (m : List (String × List QuestionItem)) (cat : String) : List QuestionItem :=
  match m with
  | [] => []
  | (c, l) :: t => if c == cat then l else lookupVBC t cat

/-- Few-shot exemplars selected for a test item of category `cat`:
`val_by_category.get(category, [])[:num_few_shot]`. -/
def fewShotFor (valData : List QuestionItem) (cat : String) (numFewShot : Nat) :
    List QuestionItem :=
  (lookupVBC (valByCategory valData) cat).take numFewShot

/-- Prompt list built by `evaluate_mmlu_pro`: one prompt per test item, in
test order (the loop appends exactly once per item and `test_items` is the
test list itself). -/
def promptsFor (tokLen : String → Nat) (maxModelLen : Int) (testData valData : List QuestionItem)
    (numFewShot : Nat) (useCot : Bool) : List String :=
  testData.map (fun item =>
    buildPrompt tokLen maxModelLen item.question item.options item.category
      (lookupVBC (valByCategory valData) item.category) numFewShot useCot)

/-! ## Result aggregation (`evaluate_mmlu_pro`, lines 280-338) -/

/-- Increment of a `collections.Counter` entry, modelled on an association
list: bump the first binding of the key, appending a fresh binding when the
key is absent. -/
def bump (m : List (String × Nat)) (key : String) : List (String × Nat) :=
  match m with
  | [] => [(key, 1)]
  | (k, n) :: t => if k == key then (k, n + 1) :: t else (k, n) :: bump t key

/-- Counter lookup with default `0`. -/
def lookupCount (m : List (String × Nat)) (key : String) : Nat :=
  match m with
  | [] => 0
  | (k, n) :: t => if k == key then n else lookupCount t key

/-- Sum of all counter values, the model of `sum(counter.values())`. -/
def sumVals (m : List (String × Nat)) : Nat :=
  match m with
  | [] => 0
  | (_, n) :: t => n + sumVals t

/-- The four counters accumulated by the scoring loop. -/
structure Counters where
  catCorrect : List (String × Nat)
  catTotal : List (String × Nat)
  domCorrect : List (String × Nat)
  domTotal : List (String × Nat)
  deriving DecidableEq, Repr

/-- Correctness test of one scored pair: the extracted prediction equals the
gold letter `CHOICES[item.answer_index]` (`pred == correct_answer`; a `None`
prediction never equals a letter). An `answer_index` beyond the ten letters
would raise in the source; the placeholder default covers that unreached
case. -/
def isCorrectPair (p : QuestionItem × String) : Bool :=
  extract_answer p.2 == some (CHOICES.getD p.1.answer_index '?')

/-- One iteration of the scoring loop: increment the total counters of the
item's category and domain, and the correct counters when the prediction
matches the gold letter. -/
def stepCounter (st : Counters) (p : QuestionItem × String) : Counters :=
  let isC := isCorrectPair p
  let cat := p.1.category
  let dom := get_domain cat
  { catTotal := bump st.catTotal cat
    domTotal := bump st.domTotal dom
    catCorrect := if isC then bump st.catCorrect cat else st.catCorrect
    domCorrect := if isC then bump st.domCorrect dom else st.domCorrect }

/-- Full scoring pass over `zip(test_items, outputs)` (model outputs are
taken as their generated texts). -/
def runCounters (items : List QuestionItem) (texts : List String) : Counters :=
  (items.zip texts).foldl stepCounter ⟨[], [], [], []⟩

/-- Model of `total_correct = sum(by_category_correct.values())`. -/
def total_correct (items : List QuestionItem) (texts : List String) : Nat :=
  sumVals (runCounters items texts).catCorrect

/-- Model of `total_count = sum(by_category_total.values())`. -/
def total_count (items : List QuestionItem) (texts : List String) : Nat :=
  sumVals (runCounters items texts).catTotal

/-- Model of `overall_accuracy = total_correct / max(1, total_count)` (exact
rational in place of Python float division of exact integers). -/
def overall_accuracy (items : List QuestionItem) (texts : List String) : ℚ :=
  (total_correct items texts : ℚ) / ((max 1 (total_count items texts) : Nat) : ℚ)

/-- Per-category accuracy of the `by_category` comprehension. -/
def catAccuracy (items : List QuestionItem) (texts : List String) (cat : String) : ℚ :=
  (lookupCount (runCounters items texts).catCorrect cat : ℚ) /
    ((max 1 (lookupCount (runCounters items texts).catTotal cat) : Nat) : ℚ)

/-- Per-domain accuracy of the `by_domain` comprehension. -/
def domAccuracy (items : List QuestionItem) (texts : List String) (dom : String) : ℚ :=
  (lookupCount (runCounters items texts).domCorrect dom : ℚ) /
    ((max 1 (lookupCount (runCounters items texts).domTotal dom) : Nat) : ℚ)

/-! ## Verdict and CLI-level behaviour -/

/-- Model of `passed = overall['overall_accuracy'] >= acceptance_threshold`
in `print_results_summary`. -/
def benchPassed (accuracy threshold : ℚ) : Bool :=
  decide (accuracy ≥ threshold)

/-- Process exit code of `main`: `sys.exit(1)` when the summary reports a
failure, implicit `0` otherwise. -/
def mainExitCode (accuracy threshold : ℚ) : Nat :=
  if benchPassed accuracy threshold then 0 else 1

/-- Python list slicing `l[:n]` for an `int` bound (negative bounds count
from the end, clamped at zero). -/
def pySliceTake {α : Type} (n : Int) (l : List α) : List α :=
  if 0 ≤ n then l.take n.toNat else l.take (l.length - (-n).toNat)

/-- Model of the `total_limit` application in `evaluate_mmlu_pro`:
`if total_limit: test_data = test_data[:total_limit]` — `None` and `0` are
both falsy, so only a non-zero limit truncates. -/
def applyTotalLimit {α : Type} (limit : Option Int) (l : List α) : List α :=
  match limit with
  | none => l
  | some n => if n == 0 then l else pySliceTake n l

/-! ## Specification-side definitions

These definitions follow the wording of the specification and of the
claims; the theorems below compare them with the source-derived functions
above. -/

/-- Rightmost standalone choice letter, written as the specification words
tier 3: scan the whole text and keep the last occurrence. -/
def lastStandaloneSpec (prev : Option Char) : List Char → Option Char
  | [] => none
  | c :: t =>
    match lastStandaloneSpec (some c) t with
    | some r => some r
    | none => if standaloneAt prev (c :: t) then some c else none

/-- Extractor as the specification describes it: tier 1, then tier 2, then
the rightmost standalone choice letter. -/
def specExtract (text : String) : Option Char :=
  match searchTier1 text.toList with
  | some c => some c
  | none =>
    match searchTier2 text.toList with
    | some c => some c
    | none => lastStandaloneSpec none text.toList

/-- Letter test used by the claim wording of tier 3. -/
def isLetterChar (c : Char) : Bool :=
  ('a' ≤ c && c ≤ 'z') || ('A' ≤ c && c ≤ 'Z')

/-- Standalone test under the claim wording of tier 3: a choice letter
whose neighbours are "non-letter boundaries" (ends of text or non-letter
characters), rather than the non-word boundaries of the source regex `\b`. -/
def claimStandaloneAt (prev : Option Char) : List Char → Bool
  | [] => false
  | c :: rest =>
    isChoiceUpper c &&
      (match prev with | none => true | some q => !isLetterChar q) &&
      (match rest.head? with | none => true | some q => !isLetterChar q)

/-- Rightmost letter standalone in the claim sense. -/
def claimLastStandalone (prev : Option Char) : List Char → Option Char
  | [] => none
  | c :: t =>
    match claimLastStandalone (some c) t with
    | some r => some r
    | none => if claimStandaloneAt prev (c :: t) then some c else none

/-- Extractor exactly as claim C2 words it: tiers 1 and 2 as in the source,
tier 3 returning the last letter bounded by non-letter boundaries. -/
def claimExtract (text : String) : Option Char :=
  match searchTier1 text.toList with
  | some c => some c
  | none =>
    match searchTier2 text.toList with
    | some c => some c
    | none => claimLastStandalone none text.toList

/-- Classifier as the specification words it: the first `DOMAIN_MAPPING`
rule whose pattern is a substring of the lower-cased category, else the
default domain. -/
def specClassify (category : String) : String :=
  match DOMAIN_MAPPING.find? (fun kd => containsSub (pyLowerList category.toList) kd.1.toList) with
  | some kd => kd.2
  | none => "Other"

/-- Prompt selection as claim C4 words it: among the exemplar counts
`numFewShot, numFewShot - 1, ..., 0`, use the first (largest) whose prompt
fits the budget; when none fits, use the zero-exemplar prompt. -/
def specBuild (tokLen : String → Nat) (maxModelLen : Int) (question : String)
    (options : List String) (category : String) (pool : List QuestionItem)
    (numFewShot : Nat) (useCot : Bool) : String :=
  let fewShot := pool.take numFewShot
  match (revRange (numFewShot + 1)).find?
      (fitsBudget tokLen maxModelLen question options category fewShot useCot) with
  | some k => promptAt question options category fewShot useCot k
  | none => promptAt question options category fewShot useCot 0

/-! ## Helper lemmas -/

theorem existsStandalone_eq_isSome (l : List Char) :
    ∀ prev, existsStandalone prev l = (lastStandaloneSpec prev l).isSome := by
  induction l with
  | nil => intro prev; rfl
  | cons c t ih =>
    intro prev
    simp only [existsStandalone, lastStandaloneSpec]
    cases h : lastStandaloneSpec (some c) t with
    | none =>
      have hex : existsStandalone (some c) t = false := by
        rw [ih (some c), h]; rfl
      rw [hex]
      cases standaloneAt prev (c :: t) <;> simp
    | some r =>
      have hex : existsStandalone (some c) t = true := by
        rw [ih (some c), h]; rfl
      rw [hex]
      simp

theorem searchTier3_eq_lastStandaloneSpec (l : List Char) :
    ∀ prev, searchTier3 prev l = lastStandaloneSpec prev l := by
  induction l with
  | nil => intro prev; rfl
  | cons c t ih =>
    intro prev
    simp only [searchTier3, lastStandaloneSpec]
    cases h : lastStandaloneSpec (some c) t with
    | none =>
      have hex : existsStandalone (some c) t = false := by
        rw [existsStandalone_eq_isSome, h]; rfl
      simp [hex, ih (some c), h]
    | some r =>
      have hex : existsStandalone (some c) t = true := by
        rw [existsStandalone_eq_isSome, h]; rfl
      simp [hex, ih (some c), h]

theorem lookupDomain_eq_find (cl : List Char) :
    ∀ rules : List (String × String),
      lookupDomain rules cl =
        (match rules.find? (fun kd => containsSub cl kd.1.toList) with
         | some kd => kd.2
         | none => "Other") := by
  intro rules
  induction rules with
  | nil => rfl
  | cons kd t ih =>
    simp only [lookupDomain, List.find?]
    cases h : containsSub cl kd.1.toList <;> simp [h, ih]

theorem lookupCount_bump (m : List (String × Nat)) (key query : String) :
    lookupCount (bump m key) query =
      lookupCount m query + (if key == query then 1 else 0) := by
  induction m with
  | nil =>
    by_cases h : key = query
    · simp [bump, lookupCount, h]
    · simp [bump, lookupCount, h]
  | cons p t ih =>
    obtain ⟨k, n⟩ := p
    by_cases hk : k = key
    · subst hk
      by_cases hq : k = query
      · subst hq
        simp [bump, lookupCount]
      · simp [bump, lookupCount, hq]
    · by_cases hq : k = query
      · subst hq
        have hkq : ¬key = k := fun hc => hk hc.symm
        simp [bump, lookupCount, hk, hkq]
      · simp [bump, lookupCount, hk, hq, ih]

theorem sumVals_bump (m : List (String × Nat)) (key : String) :
    sumVals (bump m key) = sumVals m + 1 := by
  induction m with
  | nil => rfl
  | cons p t ih =>
    obtain ⟨k, n⟩ := p
    by_cases hk : k = key
    · simp [bump, hk, sumVals]
      omega
    · simp [bump, hk, sumVals, ih]
      omega

theorem lookupVBC_addToCat (item : QuestionItem) (cat : String) :
    ∀ m, lookupVBC (addToCat m item) cat =
      if item.category == cat then lookupVBC m cat ++ [item] else lookupVBC m cat := by
  intro m
  induction m with
  | nil =>
    simp only [addToCat, lookupVBC]
    by_cases h : item.category = cat <;> simp [h]
  | cons p t ih =>
    obtain ⟨c, l⟩ := p
    by_cases hc : c = item.category
    · by_cases hq : item.category = cat
      · simp [addToCat, lookupVBC, hc, hq]
      · simp [addToCat, lookupVBC, hc, hq]
    · by_cases hq : c = cat
      · subst hq
        have hic : ¬item.category = c := fun h => hc h.symm
        simp [addToCat, lookupVBC, hc, hic]
      · simp [addToCat, lookupVBC, hc, hq, ih]

theorem lookupVBC_foldl (cat : String) :
    ∀ (vd : List QuestionItem) (m : List (String × List QuestionItem)),
      lookupVBC (vd.foldl addToCat m) cat =
        lookupVBC m cat ++ vd.filter (fun it => it.category == cat) := by
  intro vd
  induction vd with
  | nil => intro m; simp
  | cons it t ih =>
    intro m
    simp only [List.foldl_cons, ih, List.filter_cons]
    rw [lookupVBC_addToCat]
    by_cases h : it.category = cat <;> simp [h]

theorem lookupVBC_valByCategory (valData : List QuestionItem) (cat : String) :
    lookupVBC (valByCategory valData) cat =
      valData.filter (fun it => it.category == cat) := by
  simpa [valByCategory] using lookupVBC_foldl cat valData []

theorem zip_get? {α β : Type} (as : List α) :
    ∀ (bs : List β) (i : Nat),
      (as.zip bs).get? i =
        (as.get? i).bind (fun a => (bs.get? i).map (fun b => (a, b))) := by
  induction as with
  | nil => intro bs i; cases bs <;> cases i <;> simp
  | cons a t ih =>
    intro bs i
    cases bs with
    | nil => cases i <;> simp
    | cons b tb =>
      cases i with
      | zero => rfl
      | succ j => simpa using ih tb j

theorem filter_length_preserves_index (opts : List String) (idx : Nat)
    (hlen : idx < opts.length)
    (hclean : ∀ o ∈ opts.take (idx + 1), o ≠ "N/A") :
    idx < (opts.filter (fun opt => opt != "N/A")).length := by
  have hsplit : opts = opts.take (idx + 1) ++ opts.drop (idx + 1) :=
    (List.take_append_drop (idx + 1) opts).symm
  have hkeep : (opts.take (idx + 1)).filter (fun opt => opt != "N/A") = opts.take (idx + 1) := by
    apply List.filter_eq_self.mpr
    intro o ho
    simpa using hclean o ho
  calc idx < idx + 1 := Nat.lt_succ_self idx
    _ = (opts.take (idx + 1)).length := by
          rw [List.length_take]
          omega
    _ = ((opts.take (idx + 1)).filter (fun opt => opt != "N/A")).length := by rw [hkeep]
    _ ≤ ((opts.take (idx + 1)).filter (fun opt => opt != "N/A")).length +
          ((opts.drop (idx + 1)).filter (fun opt => opt != "N/A")).length := Nat.le_add_right _ _
    _ = (opts.filter (fun opt => opt != "N/A")).length := by
          conv_rhs => rw [hsplit]
          rw [List.filter_append, List.length_append]

theorem catTotal_foldl (c : String) :
    ∀ (ps : List (QuestionItem × String)) (st : Counters),
      lookupCount ((ps.foldl stepCounter st).catTotal) c =
        lookupCount st.catTotal c + ps.countP (fun p => p.1.category == c) := by
  intro ps
  induction ps with
  | nil => intro st; simp
  | cons p t ih =>
    intro st
    rw [List.foldl_cons, ih, List.countP_cons]
    simp only [stepCounter, lookupCount_bump]
    by_cases h : p.1.category = c <;> simp [h] <;> omega

theorem domTotal_foldl (d : String) :
    ∀ (ps : List (QuestionItem × String)) (st : Counters),
      lookupCount ((ps.foldl stepCounter st).domTotal) d =
        lookupCount st.domTotal d + ps.countP (fun p => get_domain p.1.category == d) := by
  intro ps
  induction ps with
  | nil => intro st; simp
  | cons p t ih =>
    intro st
    rw [List.foldl_cons, ih, List.countP_cons]
    simp only [stepCounter, lookupCount_bump]
    by_cases h : get_domain p.1.category = d <;> simp [h] <;> omega

theorem catCorrect_foldl (c : String) :
    ∀ (ps : List (QuestionItem × String)) (st : Counters),
      lookupCount ((ps.foldl stepCounter st).catCorrect) c =
        lookupCount st.catCorrect c +
          ps.countP (fun p => isCorrectPair p && p.1.category == c) := by
  intro ps
  induction ps with
  | nil => intro st; simp
  | cons p t ih =>
    intro st
    rw [List.foldl_cons, ih, List.countP_cons]
    simp only [stepCounter]
    cases hcor : isCorrectPair p with
    | false => simp
    | true =>
      by_cases h : p.1.category = c <;> simp [lookupCount_bump, h] <;> omega

theorem domCorrect_foldl (d : String) :
    ∀ (ps : List (QuestionItem × String)) (st : Counters),
      lookupCount ((ps.foldl stepCounter st).domCorrect) d =
        lookupCount st.domCorrect d +
          ps.countP (fun p => isCorrectPair p && get_domain p.1.category == d) := by
  intro ps
  induction ps with
  | nil => intro st; simp
  | cons p t ih =>
    intro st
    rw [List.foldl_cons, ih, List.countP_cons]
    simp only [stepCounter]
    cases hcor : isCorrectPair p with
    | false => simp
    | true =>
      by_cases h : get_domain p.1.category = d <;> simp [lookupCount_bump, h] <;> omega

theorem sum_catTotal_foldl :
    ∀ (ps : List (QuestionItem × String)) (st : Counters),
      sumVals ((ps.foldl stepCounter st).catTotal) = sumVals st.catTotal + ps.length := by
  intro ps
  induction ps with
  | nil => intro st; simp
  | cons p t ih =>
    intro st
    rw [List.foldl_cons, ih]
    simp only [stepCounter, sumVals_bump, List.length_cons]
    omega

theorem sum_catCorrect_foldl :
    ∀ (ps : List (QuestionItem × String)) (st : Counters),
      sumVals ((ps.foldl stepCounter st).catCorrect) =
        sumVals st.catCorrect + ps.countP isCorrectPair := by
  intro ps
  induction ps with
  | nil => intro st; simp
  | cons p t ih =>
    intro st
    rw [List.foldl_cons, ih, List.countP_cons]
    simp only [stepCounter]
    cases hcor : isCorrectPair p with
    | false => simp
    | true => simp [sumVals_bump] <;> omega

theorem revRange_getLast? (n : Nat) :
    (revRange (n + 1)).getLast? = some 0 := by
  induction n with
  | zero => rfl
  | succ m ih =>
    have : revRange (m + 2) = (m + 1) :: revRange (m + 1) := rfl
    rw [this, List.getLast?_cons]
    rw [ih]
    cases m <;> simp_all [revRange, List.getLast?_cons]

theorem mem_revRange {k n : Nat} (h : k ∈ revRange n) : k < n := by
  induction n with
  | zero => simp [revRange] at h
  | succ m ih =>
    simp only [revRange, List.mem_cons] at h
    cases h with
    | inl h => omega
    | inr h => have := ih h; omega

theorem exists_getLast?_cons {α : Type} (a : α) (l : List α) :
    ∃ j, (a :: l).getLast? = some j := by
  induction l generalizing a with
  | nil => exact ⟨a, rfl⟩
  | cons b t ih =>
    obtain ⟨j, hj⟩ := ih b
    exact ⟨j, by rw [List.getLast?_cons_cons, hj]⟩

theorem shrinkLoop_spec (tokLen : String → Nat) (maxModelLen : Int) (question : String)
    (options : List String) (category : String) (fewShot : List QuestionItem)
    (useCot : Bool) :
    ∀ (ks : List Nat) (current : String),
      shrinkLoop tokLen maxModelLen question options category fewShot useCot ks current =
        (match ks.find? (fitsBudget tokLen maxModelLen question options category fewShot useCot) with
         | some k => promptAt question options category fewShot useCot k
         | none =>
           match ks.getLast? with
           | some j => promptAt question options category fewShot useCot j
           | none => current) := by
  intro ks
  induction ks with
  | nil => intro current; rfl
  | cons k t ih =>
    intro current
    simp only [shrinkLoop, List.find?]
    cases hf : fitsBudget tokLen maxModelLen question options category fewShot useCot k with
    | true => simp
    | false =>
      simp only [Bool.false_eq_true, if_false]
      rw [ih]
      cases hft : t.find? (fitsBudget tokLen maxModelLen question options category fewShot useCot) with
      | some k2 => simp
      | none =>
        simp only
        cases t with
        | nil => simp
        | cons t0 tt =>
          obtain ⟨j, hj⟩ := exists_getLast?_cons t0 tt
          rw [hj, List.getLast?_cons_cons, hj]

/-- Shared characterization of the per-item prompt construction: the source
loop returns exactly the prompt selected by the specification-side rule. -/
theorem buildPrompt_eq_specBuild (tokLen : String → Nat) (maxModelLen : Int) (question : String)
    (options : List String) (category : String) (pool : List QuestionItem)
    (numFewShot : Nat) (useCot : Bool) :
    buildPrompt tokLen maxModelLen question options category pool numFewShot useCot =
      specBuild tokLen maxModelLen question options category pool numFewShot useCot := by
  have hpn : promptAt question options category (pool.take numFewShot) useCot numFewShot =
      format_prompt question options category
        (if numFewShot > 0 then some (pool.take numFewShot) else none) useCot := by
    simp only [promptAt, List.take_take, min_self]
  simp only [buildPrompt, specBuild]
  have hrev : revRange (numFewShot + 1) = numFewShot :: revRange numFewShot := rfl
  rw [hrev, List.find?_cons]
  cases hf : fitsBudget tokLen maxModelLen question options category (pool.take numFewShot) useCot numFewShot with
  | true =>
    have hle : ¬ ((tokLen (format_prompt question options category
        (if numFewShot > 0 then some (pool.take numFewShot) else none) useCot) : Int) >
          maxModelLen - 2048) := by
      have := hf
      simp only [fitsBudget, decide_eq_true_eq, hpn] at this
      omega
    rw [if_neg hle]
    exact hpn.symm
  | false =>
    have hgt : (tokLen (format_prompt question options category
        (if numFewShot > 0 then some (pool.take numFewShot) else none) useCot) : Int) >
          maxModelLen - 2048 := by
      have := hf
      simp only [fitsBudget, decide_eq_false_iff_not, hpn] at this
      omega
    rw [if_pos hgt, shrinkLoop_spec]
    dsimp only
    cases hft : (revRange numFewShot).find?
        (fitsBudget tokLen maxModelLen question options category (pool.take numFewShot) useCot) with
    | some k => simp
    | none =>
      simp only
      cases numFewShot with
      | zero => simp [revRange, promptAt]
      | succ m => rw [revRange_getLast? m]

/-! ## Claim C1 -/

/-- Raw record whose options contain the placeholder at a position before
the correct answer: original options `["N/A", "x"]` with `answer_index = 1`. -/
def c1Raw : RawItem :=
  { question_id := some 0
    question := "q"
    options := ["N/A", "x"]
    answer := "B"
    answer_index := 1
    category := "math"
    cot_content := none
    src := none }

/-- C1 counterexample: `preprocess_dataset` removes the placeholder option
but copies `answer_index` unchanged, so for a record whose placeholder sits
at a position at or before the answer the processed `answer_index` no longer
satisfies `answer_index < len(options)` — here the single processed record
keeps `answer_index = 1` over the one-element options list `["x"]`. -/
theorem C1_counterexample :
    ((preprocess_dataset [c1Raw]).all
        (fun q => decide (q.answer_index < q.options.length))) = false ∧
      (preprocess_dataset [c1Raw]).map (fun q => q.options) = [["x"]] ∧
      (preprocess_dataset [c1Raw]).map (fun q => q.answer_index) = [1] := by
  refine ⟨by decide, by decide, by decide⟩

/-- C1 (amended): for every raw record whose original `answer_index` is in
range and whose options at positions at or before `answer_index` are all
different from the placeholder `"N/A"`, every record produced by
`preprocess_dataset` satisfies `answer_index < len(options)` after the
placeholder removal. (The unconditional claim fails: `answer_index` is not
re-based when a placeholder occurs at or before the answer position, see the
counterexample.) -/
theorem C1_answer_index_resolves (ds : List RawItem)
    (h : ∀ item ∈ ds, item.answer_index < item.options.length ∧
        ∀ o ∈ item.options.take (item.answer_index + 1), o ≠ "N/A") :
    ∀ q ∈ preprocess_dataset ds, q.answer_index < q.options.length := by
  intro q hq
  simp only [preprocess_dataset, List.mem_map] at hq
  obtain ⟨⟨i, item⟩, hmem, rfl⟩ := hq
  have hget : ds.get? i = some item := by
    simpa using List.mem_enum_iff_get?.mp hmem
  have hin : item ∈ ds := List.get?_mem hget
  obtain ⟨hlen, hclean⟩ := h item hin
  simpa [preprocessItem] using
    filter_length_preserves_index item.options item.answer_index hlen hclean

/-- Raw record with a placeholder strictly after the answer position, used
to instantiate the amended C1 theorem. -/
def c1GoodRaw : RawItem :=
  { question_id := none
    question := "q"
    options := ["a", "b", "N/A"]
    answer := "B"
    answer_index := 1
    category := "law"
    cot_content := none
    src := none }

/-- Witness for the amended C1 theorem at a concrete dataset. -/
theorem C1_witness :
    ((preprocess_dataset [c1GoodRaw]).all
        (fun q => decide (q.answer_index < q.options.length))) = true := by
  have h := C1_answer_index_resolves [c1GoodRaw] (by decide)
  exact List.all_eq_true.mpr (fun q hq => decide_eq_true (h q hq))

/-! ## Claim C5 -/

/-- C5: `get_domain` lower-cases the category, scans `DOMAIN_MAPPING` in
declaration order and returns the first rule whose pattern is a substring,
defaulting to `"Other"`; for `"general health"` (and for `"mother health"`,
which contains both `"health"` and `"other"` as substrings) the first
matching rule is the `"health"` rule, whose domain `"Other"` is returned;
a category matching no rule falls back to the default `"Other"`. -/
theorem C5_domain_first_match :
    (∀ category : String, get_domain category = specClassify category) ∧
    DOMAIN_MAPPING.find? (fun kd => containsSub (pyLowerList "general health".toList) kd.1.toList) =
      some ("health", "Other") ∧
    get_domain "general health" = "Other" ∧
    DOMAIN_MAPPING.find? (fun kd => containsSub (pyLowerList "mother health".toList) kd.1.toList) =
      some ("health", "Other") ∧
    get_domain "mother health" = "Other" ∧
    get_domain "astronomy" = "Other" := by
  refine ⟨fun category => ?_, by decide, by decide, by decide, by decide, by decide⟩
  rw [get_domain, specClassify, lookupDomain_eq_find]

/-! ## Claim C2 -/

/-- C2 counterexample: the claim words tier 3 as returning the last
standalone letter "bounded by non-letter boundaries", but the source regex
uses `\b`, whose boundary class also contains digits and the underscore.
On `"A 3B"` (no tier-1/tier-2 match) the claim reading finds `B` standalone
(its left neighbour `3` is a non-letter) and returns the rightmost match
`B`, while the source finds only `A` standalone (`3B` has no word boundary
between `3` and `B`) and returns `A`. -/
theorem C2_counterexample :
    extract_answer "A 3B" = some 'A' ∧ claimExtract "A 3B" = some 'B' :=
  ⟨by decide, by decide⟩

/-- C2 (amended): `extract_answer` applies three ordered tiers with first
match winning — the case-insensitive `answer is`-pattern, then the
`Answer:`-pattern, then the last (rightmost) standalone letter A-J bounded
by non-word boundaries (word characters being letters, digits, and the
underscore, per the source regex `\b`); the result of an earlier tier is
returned even when later tiers would also match. -/
theorem C2_extract_matches_spec (s : String) :
    extract_answer s = specExtract s := by
  simp only [extract_answer, specExtract, searchTier3_eq_lastStandaloneSpec]

/-! ## Claim C3 -/

/-- Fixture of the aggregation test: two math items with golds A and B, one
law item with gold C. -/
def fixtureItems : List QuestionItem :=
  [{ question_id := 0, question := "q1", options := ["o1", "o2", "o3", "o4"],
     answer := "A", answer_index := 0, category := "math", cot_content := "", src := "" },
   { question_id := 1, question := "q2", options := ["o1", "o2", "o3", "o4"],
     answer := "B", answer_index := 1, category := "math", cot_content := "", src := "" },
   { question_id := 2, question := "q3", options := ["o1", "o2", "o3", "o4"],
     answer := "C", answer_index := 2, category := "law", cot_content := "", src := "" }]

/-- Model outputs of the fixture, extracting to predictions A, A, C
(correct, incorrect, correct). -/
def fixtureTexts : List String :=
  ["The answer is (A).", "The answer is (A).", "the answer is C"]

/-- C3: the aggregation counts pairs in corresponding order — an item is
counted correct exactly when the extracted prediction equals the gold
letter `CHOICES[answer_index]`, each item increments the counters of its
category and of `get_domain(category)`, all counts are exact naturals —
and the accuracies are `correct / max(1, total)` overall, per category and
per domain; on the three-item fixture (math, math, law with predictions
correct, incorrect, correct) this gives 2/3 overall, 1/2 for math, 1/1 for
law, and consistently 1/2 for STEM and 1/1 for Humanities. -/
theorem C3_aggregation :
    (∀ (items : List QuestionItem) (texts : List String),
      total_count items texts = (items.zip texts).length ∧
      total_correct items texts = (items.zip texts).countP isCorrectPair ∧
      overall_accuracy items texts =
        (((items.zip texts).countP isCorrectPair : Nat) : ℚ) /
          ((max 1 (items.zip texts).length : Nat) : ℚ) ∧
      (∀ cat : String, catAccuracy items texts cat =
        (((items.zip texts).countP (fun p => isCorrectPair p && p.1.category == cat) : Nat) : ℚ) /
          ((max 1 ((items.zip texts).countP (fun p => p.1.category == cat)) : Nat) : ℚ)) ∧
      (∀ dom : String, domAccuracy items texts dom =
        (((items.zip texts).countP
            (fun p => isCorrectPair p && get_domain p.1.category == dom) : Nat) : ℚ) /
          ((max 1 ((items.zip texts).countP
            (fun p => get_domain p.1.category == dom)) : Nat) : ℚ))) ∧
    overall_accuracy fixtureItems fixtureTexts = 2 / 3 ∧
    catAccuracy fixtureItems fixtureTexts "math" = 1 / 2 ∧
    catAccuracy fixtureItems fixtureTexts "law" = 1 ∧
    domAccuracy fixtureItems fixtureTexts "STEM" = 1 / 2 ∧
    domAccuracy fixtureItems fixtureTexts "Humanities" = 1 := by
  have hc2 : total_correct fixtureItems fixtureTexts = 2 := by decide
  have ht3 : total_count fixtureItems fixtureTexts = 3 := by decide
  have hmc : lookupCount (runCounters fixtureItems fixtureTexts).catCorrect "math" = 1 := by decide
  have hmt : lookupCount (runCounters fixtureItems fixtureTexts).catTotal "math" = 2 := by decide
  have hlc : lookupCount (runCounters fixtureItems fixtureTexts).catCorrect "law" = 1 := by decide
  have hlt : lookupCount (runCounters fixtureItems fixtureTexts).catTotal "law" = 1 := by decide
  have hsc : lookupCount (runCounters fixtureItems fixtureTexts).domCorrect "STEM" = 1 := by decide
  have hst : lookupCount (runCounters fixtureItems fixtureTexts).domTotal "STEM" = 2 := by decide
  have hhc : lookupCount (runCounters fixtureItems fixtureTexts).domCorrect "Humanities" = 1 := by
    decide
  have hht : lookupCount (runCounters fixtureItems fixtureTexts).domTotal "Humanities" = 1 := by
    decide
  refine ⟨fun items texts => ⟨?_, ?_, ?_, fun cat => ?_, fun dom => ?_⟩,
    by rw [overall_accuracy, hc2, ht3]; norm_num,
    by rw [catAccuracy, hmc, hmt]; norm_num,
    by rw [catAccuracy, hlc, hlt]; norm_num,
    by rw [domAccuracy, hsc, hst]; norm_num,
    by rw [domAccuracy, hhc, hht]; norm_num⟩
  · simpa [sumVals] using sum_catTotal_foldl (items.zip texts) ⟨[], [], [], []⟩
  · simpa [sumVals] using sum_catCorrect_foldl (items.zip texts) ⟨[], [], [], []⟩
  · rw [overall_accuracy]
    have h1 := sum_catTotal_foldl (items.zip texts) (⟨[], [], [], []⟩ : Counters)
    have h2 := sum_catCorrect_foldl (items.zip texts) (⟨[], [], [], []⟩ : Counters)
    simp only [sumVals] at h1 h2
    rw [total_correct, total_count, runCounters, h1, h2]
    simp
  · rw [catAccuracy]
    have h1 := catTotal_foldl cat (items.zip texts) (⟨[], [], [], []⟩ : Counters)
    have h2 := catCorrect_foldl cat (items.zip texts) (⟨[], [], [], []⟩ : Counters)
    simp only [lookupCount] at h1 h2
    rw [runCounters, h1, h2]
    simp
  · rw [domAccuracy]
    have h1 := domTotal_foldl dom (items.zip texts) (⟨[], [], [], []⟩ : Counters)
    have h2 := domCorrect_foldl dom (items.zip texts) (⟨[], [], [], []⟩ : Counters)
    simp only [lookupCount] at h1 h2
    rw [runCounters, h1, h2]
    simp

/-! ## Claim C4 -/

/-- C4: the per-item prompt construction equals the specification-side
selection — the first (largest) exemplar count among `k, k-1, ..., 0` whose
prompt fits the budget `max_model_len - 2048`, with the zero-exemplar
prompt used unmodified when no count fits (and the initial prompt used
without rebuilding when it already fits, since it is the first candidate). -/
theorem C4_budget_shrinking (tokLen : String → Nat) (maxModelLen : Int) (question : String)
    (options : List String) (category : String) (pool : List QuestionItem)
    (numFewShot : Nat) (useCot : Bool) :
    buildPrompt tokLen maxModelLen question options category pool numFewShot useCot =
      specBuild tokLen maxModelLen question options category pool numFewShot useCot ∧
    ((∀ k, k ≤ numFewShot →
        fitsBudget tokLen maxModelLen question options category (pool.take numFewShot) useCot k
          = false) →
      buildPrompt tokLen maxModelLen question options category pool numFewShot useCot =
        promptAt question options category (pool.take numFewShot) useCot 0) := by
  refine ⟨buildPrompt_eq_specBuild tokLen maxModelLen question options category pool
    numFewShot useCot, fun hall => ?_⟩
  rw [buildPrompt_eq_specBuild]
  have hfind : (revRange (numFewShot + 1)).find?
      (fitsBudget tokLen maxModelLen question options category (pool.take numFewShot) useCot)
        = none := by
    apply List.find?_eq_none.mpr
    intro k hk
    have hlt := mem_revRange hk
    simp [hall k (by omega)]
  simp only [specBuild]
  rw [hfind]

/-- Witness for C4 with a tokenizer that always reports 5000 tokens against
a 4096-token context: no exemplar count fits, and the zero-exemplar prompt
is returned. -/
theorem C4_witness :
    buildPrompt (fun _ => 5000) 4096 "q" ["a"] "math" [] 5 true =
      promptAt "q" ["a"] "math" (([] : List QuestionItem).take 5) true 0 := by
  apply (C4_budget_shrinking (fun _ => 5000) 4096 "q" ["a"] "math" [] 5 true).2
  intro k hk
  rfl

/-! ## Claim C6 -/

/-- C6: the pipeline builds exactly one prompt per test item in test order
(`prompts[i]` comes from `testData[i]`), every few-shot exemplar selected
for a category comes from the validation pool and has that category (the
test pool is never consulted), and zipping test items with the backend
outputs pairs index `i` with index `i`. -/
theorem C6_prompt_pipeline (tokLen : String → Nat) (maxModelLen : Int)
    (testData valData : List QuestionItem) (numFewShot : Nat) (useCot : Bool) :
    (promptsFor tokLen maxModelLen testData valData numFewShot useCot).length
        = testData.length ∧
    (∀ i : Nat, (promptsFor tokLen maxModelLen testData valData numFewShot useCot).get? i =
      (testData.get? i).map (fun item =>
        buildPrompt tokLen maxModelLen item.question item.options item.category
          (lookupVBC (valByCategory valData) item.category) numFewShot useCot)) ∧
    (∀ (cat : String) (ex : QuestionItem), ex ∈ fewShotFor valData cat numFewShot →
      ex ∈ valData ∧ ex.category = cat) ∧
    (∀ (outputs : List String) (i : Nat),
      (testData.zip outputs).get? i =
        (testData.get? i).bind (fun item => (outputs.get? i).map (fun out => (item, out)))) := by
  refine ⟨by simp [promptsFor], fun i => by simp [promptsFor, List.get?_map],
    fun cat ex hex => ?_, fun outputs i => zip_get? testData outputs i⟩
  rw [fewShotFor, lookupVBC_valByCategory] at hex
  have hmem := List.mem_of_mem_take hex
  rw [List.mem_filter] at hmem
  exact ⟨hmem.1, by simpa using hmem.2⟩

/-- Validation item used to instantiate the exemplar-provenance part of C6. -/
def c6Val : QuestionItem :=
  { question_id := 7, question := "vq", options := ["o1", "o2"],
    answer := "A", answer_index := 0, category := "math", cot_content := "", src := "" }

/-- Witness for C6: the concrete exemplar selected for category `"math"`
comes from the validation pool and carries that category. -/
theorem C6_witness : c6Val ∈ [c6Val] ∧ c6Val.category = "math" :=
  (C6_prompt_pipeline (fun _ => 0) 4096 [] [c6Val] 5 true).2.2.1 "math" c6Val (by decide)

/-! ## Claim C7 -/

/-- C7: `extract_answer` (a total function in this embedding, as the source
never raises) returns the unknown sentinel `none` exactly when none of the
three tiers matches, and an unknown prediction is counted as incorrect in
aggregation, since `None` never equals a gold letter. -/
theorem C7_extraction_total (s : String) :
    (extract_answer s = none ↔
      searchTier1 s.toList = none ∧ searchTier2 s.toList = none ∧
        searchTier3 none s.toList = none) ∧
    (extract_answer s = none → ∀ item : QuestionItem, isCorrectPair (item, s) = false) := by
  constructor
  · constructor
    · intro h
      simp only [extract_answer] at h
      cases h1 : searchTier1 s.toList with
      | some c => rw [h1] at h; simp at h
      | none =>
        rw [h1] at h
        cases h2 : searchTier2 s.toList with
        | some c => rw [h2] at h; simp at h
        | none =>
          rw [h2] at h
          exact ⟨rfl, rfl, h⟩
    · rintro ⟨h1, h2, h3⟩
      simp only [extract_answer, h1, h2, h3]
  · intro h item
    simp only [isCorrectPair]
    rw [h]
    rfl

/-- Witness for C7 at a generation with no extractable answer. -/
theorem C7_witness :
    isCorrectPair
      ({ question_id := 0, question := "q", options := ["x"], answer := "A",
         answer_index := 0, category := "math", cot_content := "", src := "" },
        "zzz 123") = false :=
  (C7_extraction_total "zzz 123").2 (by decide) _

/-! ## Claim C8 -/

/-- C8: the process exit code is non-zero exactly when the observed overall
accuracy is strictly below the acceptance threshold; accuracy equal to the
threshold passes with exit code zero. -/
theorem C8_exit_code (accuracy threshold : ℚ) :
    (mainExitCode accuracy threshold ≠ 0 ↔ accuracy < threshold) ∧
    (accuracy = threshold → mainExitCode accuracy threshold = 0) := by
  constructor
  · constructor
    · intro hne
      by_cases h : accuracy ≥ threshold
      · exact absurd (by simp [mainExitCode, benchPassed, h]) hne
      · exact lt_of_not_ge h
    · intro hlt
      have h : ¬ accuracy ≥ threshold := not_le.mpr hlt
      simp [mainExitCode, benchPassed, h]
  · intro h
    simp [mainExitCode, benchPassed, ge_of_eq h]

/-- Witness for C8 at accuracy exactly equal to the threshold. -/
theorem C8_witness : mainExitCode (1 / 2 : ℚ) (1 / 2 : ℚ) = 0 :=
  (C8_exit_code (1 / 2) (1 / 2)).2 rfl

/-! ## Claim C9 -/

/-- C9: prompt construction is deterministic — identical arguments to
`format_prompt` yield character-identical text — and the budget-shrinking
result is always exactly the deterministic prompt of some exemplar count
`k ≤ numFewShot`, so rebuilding at the same count always reproduces the
same text. -/
theorem C9_determinism :
    (∀ (q1 q2 : String) (o1 o2 : List String) (c1 c2 : String)
        (f1 f2 : Option (List QuestionItem)) (u1 u2 : Bool),
      q1 = q2 → o1 = o2 → c1 = c2 → f1 = f2 → u1 = u2 →
        format_prompt q1 o1 c1 f1 u1 = format_prompt q2 o2 c2 f2 u2) ∧
    (∀ (tokLen : String → Nat) (maxModelLen : Int) (question : String)
        (options : List String) (category : String) (pool : List QuestionItem)
        (numFewShot : Nat) (useCot : Bool),
      ∃ k, k ≤ numFewShot ∧
        buildPrompt tokLen maxModelLen question options category pool numFewShot useCot =
          promptAt question options category (pool.take numFewShot) useCot k) := by
  constructor
  · intro q1 q2 o1 o2 c1 c2 f1 f2 u1 u2 hq ho hc hf hu
    subst hq; subst ho; subst hc; subst hf; subst hu; rfl
  · intro tokLen maxModelLen question options category pool numFewShot useCot
    rw [buildPrompt_eq_specBuild]
    simp only [specBuild]
    cases hfind : (revRange (numFewShot + 1)).find?
        (fitsBudget tokLen maxModelLen question options category (pool.take numFewShot) useCot) with
    | some k =>
      have hk := mem_revRange (List.mem_of_find?_eq_some hfind)
      exact ⟨k, by omega, rfl⟩
    | none => exact ⟨0, Nat.zero_le _, rfl⟩

/-- Witness for C9: two identical invocations of `format_prompt` yield the
same text. -/
theorem C9_witness :
    format_prompt "q" ["a"] "math" none true = format_prompt "q" ["a"] "math" none true :=
  C9_determinism.1 "q" "q" ["a"] ["a"] "math" "math" none none true true rfl rfl rfl rfl rfl

/-! ## Claim C10 -/

/-- C10: a `total_limit` of `0` leaves the test set untouched (only truthy
values trigger the slice, and `0` is falsy), a positive limit `n` keeps the
first `n` items, and an absent limit keeps everything. -/
theorem C10_total_limit {α : Type} (l : List α) :
    applyTotalLimit (some 0) l = l ∧
    (∀ n : Int, 0 < n → applyTotalLimit (some n) l = l.take n.toNat) ∧
    applyTotalLimit none l = l := by
  refine ⟨by simp [applyTotalLimit], fun n hn => ?_, rfl⟩
  have h0 : (n == 0) = false := by
    simp only [beq_eq_false_iff_ne, ne_eq]
    omega
  simp [applyTotalLimit, h0, pySliceTake, hn.le]

/-- Witness for C10 at limit 2 over a three-element list. -/
theorem C10_witness :
    applyTotalLimit (some 2) ["a", "b", "c"] = (["a", "b", "c"] : List String).take (2 : Int).toNat :=
  (C10_total_limit ["a", "b", "c"]).2.1 2 (by decide)

end MMLUPro
